import Mathlib

/-!
Verification of the PProtoCpp messaging library against its specification.

The definitions below are a shallow embedding of the C++ sources:

* `Message` and its operations  — src/message.h, src/message.cpp
* the QDataStream serialization — `Message.toDataStream` / `Message.fromDataStream`
* the per-socket send queue     — src/transport/base.cpp (`Socket::run`)
* the stream framing / compression step — src/transport/base.cpp
* `Properties`                  — src/transport/base.h
* the two-point forwarder       — src/routing.cpp (`RouteCommands::forwarding`)
* the JSON `Reader` visitor     — src/serialize/json.cpp

Machine integers are modelled as `Nat` (unsigned) or `Int` (signed); the
C++ bit-field union `Message::_flags` is modelled as a 32-bit word accessed
through `getBits` / `setBits`.
-/

/-- Extract `width` bits of the word `w` starting at bit `lo`
(the C++ bit-field read `w.field`). -/
def getBits (w lo width : Nat) : Nat :=
  w / 2 ^ lo % 2 ^ width

/-- Overwrite `width` bits of the word `w` starting at bit `lo` with `v`
(the C++ bit-field write `w.field = v`). -/
def setBits (w lo width v : Nat) : Nat :=
  w % 2 ^ lo + 2 ^ lo * (v % 2 ^ width + 2 ^ width * (w / 2 ^ (lo + width)))

theorem getBits_setBits_self (w lo width v : Nat) :
    getBits (setBits w lo width v) lo width = v % 2 ^ width := by
  unfold getBits setBits
  have hL : 0 < 2 ^ lo := Nat.pos_pow_of_pos lo (by norm_num)
  rw [Nat.add_mul_div_left _ _ hL,
      Nat.div_eq_of_lt (Nat.mod_lt w hL), Nat.zero_add,
      Nat.add_mul_mod_self_left,
      Nat.mod_mod_of_dvd _ (dvd_refl _)]

theorem getBits_setBits_below (w lo width v lo' width' : Nat)
    (h : lo' + width' ≤ lo) :
    getBits (setBits w lo width v) lo' width' = getBits w lo' width' := by
  unfold getBits setBits
  have hL' : 0 < 2 ^ lo' := Nat.pos_pow_of_pos lo' (by norm_num)
  have hsplit : 2 ^ lo = 2 ^ lo' * (2 ^ width' * 2 ^ (lo - lo' - width')) := by
    rw [← pow_add, ← pow_add]; congr 1; omega
  set X := v % 2 ^ width + 2 ^ width * (w / 2 ^ (lo + width)) with hX
  have lhs1 : w % 2 ^ lo + 2 ^ lo * X
      = w % 2 ^ lo + 2 ^ lo' * (2 ^ width' * 2 ^ (lo - lo' - width') * X) := by
    rw [hsplit]; ring
  have rhs1 : w = w % 2 ^ lo + 2 ^ lo' * (2 ^ width' * 2 ^ (lo - lo' - width') * (w / 2 ^ lo)) := by
    conv_lhs => rw [← Nat.mod_add_div w (2 ^ lo)]
    rw [hsplit]; ring
  rw [lhs1, Nat.add_mul_div_left _ _ hL', mul_assoc, Nat.add_mul_mod_self_left]
  conv_rhs => rw [rhs1]
  rw [Nat.add_mul_div_left _ _ hL', mul_assoc, Nat.add_mul_mod_self_left]

theorem getBits_setBits_above (w lo width v lo' width' : Nat)
    (h : lo + width ≤ lo') :
    getBits (setBits w lo width v) lo' width' = getBits w lo' width' := by
  unfold getBits setBits
  have hK : 0 < 2 ^ (lo + width) := Nat.pos_pow_of_pos _ (by norm_num)
  have hb : w % 2 ^ lo + 2 ^ lo * (v % 2 ^ width) < 2 ^ (lo + width) := by
    have h1 : w % 2 ^ lo < 2 ^ lo := Nat.mod_lt _ (Nat.pos_pow_of_pos lo (by norm_num))
    have h2 : v % 2 ^ width < 2 ^ width := Nat.mod_lt _ (Nat.pos_pow_of_pos width (by norm_num))
    calc w % 2 ^ lo + 2 ^ lo * (v % 2 ^ width)
        ≤ (2 ^ lo - 1) + 2 ^ lo * (2 ^ width - 1) := by
          apply Nat.add_le_add (by omega)
          exact Nat.mul_le_mul_left _ (by omega)
      _ < 2 ^ lo * 2 ^ width := by
          have : 0 < 2 ^ lo := Nat.pos_pow_of_pos lo (by norm_num)
          have : 0 < 2 ^ width := Nat.pos_pow_of_pos width (by norm_num)
          have hexp : 2 ^ lo * 2 ^ width = 2 ^ lo + 2 ^ lo * (2 ^ width - 1) := by
            have : 2 ^ width - 1 + 1 = 2 ^ width := by omega
            calc 2 ^ lo * 2 ^ width = 2 ^ lo * ((2 ^ width - 1) + 1) := by rw [this]
              _ = 2 ^ lo + 2 ^ lo * (2 ^ width - 1) := by ring
          omega
      _ = 2 ^ (lo + width) := (pow_add 2 lo width).symm
  have hsplit : 2 ^ lo' = 2 ^ (lo + width) * 2 ^ (lo' - lo - width) := by
    rw [← pow_add]; congr 1; omega
  set b := w % 2 ^ lo + 2 ^ lo * (v % 2 ^ width) with hbdef
  have lhs0 : w % 2 ^ lo + 2 ^ lo * (v % 2 ^ width + 2 ^ width * (w / 2 ^ (lo + width)))
      = b + 2 ^ (lo + width) * (w / 2 ^ (lo + width)) := by
    rw [hbdef, pow_add]; ring
  rw [lhs0, hsplit, ← Nat.div_div_eq_div_mul, ← Nat.div_div_eq_div_mul,
      Nat.add_mul_div_left _ _ hK, Nat.div_eq_of_lt hb, Nat.zero_add]

/-- A single bit of the word as a `Bool` (C++ one-bit bit-field read). -/
def testBit1 (w i : Nat) : Bool :=
  getBits w i 1 = 1

/-- C++ `bool` → one-bit bit-field value. -/
def bit01 (b : Bool) : Nat :=
  if b then 1 else 0

theorem getBits_setBits_bit (w i : Nat) (b : Bool) :
    getBits (setBits w i 1 (bit01 b)) i 1 = bit01 b := by
  rw [getBits_setBits_self]
  cases b <;> simp [bit01]

/-- The C++ bit-field write acting on a single bit always leaves exactly the
written bit there. -/
theorem testBit1_setBits_self (w i : Nat) (b : Bool) :
    testBit1 (setBits w i 1 (bit01 b)) i = b := by
  unfold testBit1
  rw [getBits_setBits_bit]
  cases b <;> simp [bit01]

/-- Writing one bit leaves every other single-bit field unchanged. -/
theorem testBit1_setBits_other (w j v i : Nat) (h : i ≠ j) :
    testBit1 (setBits w j 1 v) i = testBit1 w i := by
  unfold testBit1
  rcases Nat.lt_or_ge i j with hlt | hge
  · rw [getBits_setBits_below _ _ _ _ _ _ (by omega)]
  · rw [getBits_setBits_above _ _ _ _ _ _ (by omega)]

/-! ## Message (src/message.h, src/message.cpp)

Enumeration values are the `static_cast<quint32>` codes of the C++ enums. -/

def typeUnknown : Nat := 0
def typeCommand : Nat := 1
def typeAnswer : Nat := 2
def typeEvent : Nat := 3

def execStatusUnknown : Nat := 0
def execStatusSuccess : Nat := 1
def execStatusFailed : Nat := 2
def execStatusError : Nat := 3

def priorityHigh : Nat := 0
def priorityNormal : Nat := 1
def priorityLow : Nat := 2

def compressionNone : Nat := 0
def compressionZip : Nat := 1
def compressionDisable : Nat := 7

def socketTypeUnknown : Nat := 0

/-- Sentinel `quint64(-1)`: the default of `Message::_maxTimeLife`. -/
def u64Max : Nat := 2 ^ 64 - 1

/-- Log records emitted by the modelled operations; only the level matters
for the claims. -/
inductive LogLevel where
  | error
  | warn
deriving DecidableEq

/-- The message object of src/message.h.  The `_flags` union is kept as the
32-bit word `flags`; bit-field accesses go through `getBits`/`setBits` at the
offsets of the C++ bit-field struct.  UUIDs are modelled as their 128-bit
numeric value, byte arrays as lists of bytes. -/
structure Message where
  id : Nat
  command : Nat
  protocolVersionLow : Nat
  protocolVersionHigh : Nat
  flags : Nat
  flags2 : Nat
  tags : List Nat
  maxTimeLife : Nat
  proxyId : Nat
  accessId : List Nat
  content : List Nat
  socketType : Nat
  sourcePoint : Nat × Nat
  socketDescriptor : Int
  socketName : String
  auxiliary : Int
  destinationPoints : List (Nat × Nat)
  destinationSockets : List Int
deriving DecidableEq

/-- `PPROTO_VERSION_LOW` (a build-time constant; its value is irrelevant to
the claims below). -/
def pprotoVersionLow : Nat := 1

/-- `PPROTO_VERSION_HIGH` (a build-time constant). -/
def pprotoVersionHigh : Nat := 1

/-- A freshly constructed `Message()` with the member initializers of
src/message.h (flags zeroed in the constructor, `_maxTimeLife = quint64(-1)`,
`_socketDescriptor = -1`, containers empty). -/
def Message.fresh : Message where
  id := 0
  command := 0
  protocolVersionLow := pprotoVersionLow
  protocolVersionHigh := pprotoVersionHigh
  flags := 0
  flags2 := 0
  tags := []
  maxTimeLife := u64Max
  proxyId := 0
  accessId := []
  content := []
  socketType := socketTypeUnknown
  sourcePoint := (0, 0)
  socketDescriptor := -1
  socketName := ""
  auxiliary := 0
  destinationPoints := []
  destinationSockets := []

def Message.type (m : Message) : Nat := getBits m.flags 0 3

def Message.setType (m : Message) (v : Nat) : Message :=
  { m with flags := setBits m.flags 0 3 v }

def Message.execStatus (m : Message) : Nat := getBits m.flags 3 3

def Message.setExecStatus (m : Message) (v : Nat) : Message :=
  { m with flags := setBits m.flags 3 3 v }

def Message.priority (m : Message) : Nat := getBits m.flags 6 2

def Message.setPriority (m : Message) (v : Nat) : Message :=
  { m with flags := setBits m.flags 6 2 v }

def Message.compression (m : Message) : Nat := getBits m.flags 8 3

/-- The bit-field assignment `_flag.compression = ...` (done inline by
`cloneForAnswer`, `compress` and `decompress`). -/
def Message.setCompression (m : Message) (v : Nat) : Message :=
  { m with flags := setBits m.flags 8 3 v }

def Message.contentFormat (m : Message) : Nat := getBits m.flags 24 3

/-- `Message::initNotEmptyTraits`: recompute the six not-empty bits of the
flag word from the actual field values (bits 31, 11, 12, 13, 14, 15 in
source order). -/
def Message.initNotEmptyTraits (m : Message) : Message :=
  let f := setBits (setBits (setBits (setBits (setBits (setBits m.flags
        31 1 (bit01 (m.flags2 != 0)))
        11 1 (bit01 (!m.tags.isEmpty)))
        12 1 (bit01 (m.maxTimeLife != u64Max)))
        13 1 (bit01 (!m.content.isEmpty)))
        14 1 (bit01 (m.proxyId != 0)))
        15 1 (bit01 (!m.accessId.isEmpty))
  { m with flags := f }

/-- `Message::cloneForAnswer`: start from a fresh message, copy the listed
fields, then set type/execStatus/compression through the bit-field writes. -/
def Message.cloneForAnswer (m : Message) : Message :=
  let c := { Message.fresh with
    id := m.id
    command := m.command
    protocolVersionLow := m.protocolVersionLow
    protocolVersionHigh := m.protocolVersionHigh
    flags := m.flags
    flags2 := m.flags2
    tags := m.tags
    maxTimeLife := m.maxTimeLife
    proxyId := m.proxyId
    accessId := m.accessId
    socketType := m.socketType
    sourcePoint := m.sourcePoint
    socketDescriptor := m.socketDescriptor
    socketName := m.socketName
    auxiliary := m.auxiliary }
  ((c.setType typeAnswer).setExecStatus execStatusSuccess).setCompression compressionNone

/-- Models `lst::inRange(val, min, max)` of the shared list library: a
half-open range check, matching the error text "[0..254]" that
`Message::tag`/`setTag` log for `inRange(index, 0, 255)`. -/
def lstInRange (v lo hi : Int) : Bool :=
  lo ≤ v && v < hi

/-- `Message::tag(int index)`. -/
def Message.tag (m : Message) (index : Int) : Nat × List LogLevel :=
  if !lstInRange index 0 255 then (0, [.error])
  else if index ≥ (m.tags.length : Int) then (0, [])
  else (m.tags.getD index.toNat 0, [])

/-- `Message::setTag(quint64 val, int index)`; `QVector::resize` fills the
new positions with zero-initialized elements. -/
def Message.setTag (m : Message) (val : Nat) (index : Int) : Message × List LogLevel :=
  if !lstInRange index 0 255 then (m, [.error])
  else
    let tags :=
      if index ≥ (m.tags.length : Int)
      then m.tags ++ List.replicate (index.toNat + 1 - m.tags.length) 0
      else m.tags
    ({ m with tags := tags.set index.toNat val }, [])

/-- `Message::setTags`: store the vector; above 255 elements truncate to the
first 255 and log an error. -/
def Message.setTags (m : Message) (val : List Nat) : Message × List LogLevel :=
  if val.length > 255 then ({ m with tags := val.take 255 }, [.error])
  else ({ m with tags := val }, [])

/-! ## QDataStream serialization (Message::toDataStream / fromDataStream)

`QDataStream` insertions of typed values are modelled as typed tokens — the
primitive encodings (byte order, length fields) belong to Qt, an external
collaborator; the claims concern which fields are written and read.
`Tok.bytes` stands for the Qt byte-array record written by
`stream << QByteArray` and read back by `serialize::readByteArray`. -/

inductive Tok where
  | u8 (n : Nat)
  | u16 (n : Nat)
  | u32 (n : Nat)
  | u64 (n : Nat)
  | uuid (n : Nat)
  | bytes (bs : List Nat)
deriving DecidableEq

def readU8 : List Tok → Option (Nat × List Tok)
  | Tok.u8 n :: ts => some (n, ts)
  | _ => none

def readU16 : List Tok → Option (Nat × List Tok)
  | Tok.u16 n :: ts => some (n, ts)
  | _ => none

def readU32 : List Tok → Option (Nat × List Tok)
  | Tok.u32 n :: ts => some (n, ts)
  | _ => none

def readU64 : List Tok → Option (Nat × List Tok)
  | Tok.u64 n :: ts => some (n, ts)
  | _ => none

def readUuid : List Tok → Option (Nat × List Tok)
  | Tok.uuid n :: ts => some (n, ts)
  | _ => none

def readBytes : List Tok → Option (List Nat × List Tok)
  | Tok.bytes bs :: ts => some (bs, ts)
  | _ => none

/-- The tag-reading loop of `Message::fromDataStream`: `size` consecutive
`quint64` reads. -/
def readU64List : Nat → List Tok → Option (List Nat × List Tok)
  | 0, ts => some ([], ts)
  | n + 1, ts =>
      (readU64 ts).bind fun v =>
      (readU64List n v.2).bind fun vs =>
      some (v.1 :: vs.1, vs.2)

/-- `Message::toDataStream`: call `initNotEmptyTraits`, write the fixed
header, then each optional trailing field exactly when its not-empty bit of
the (recomputed) flag word is set.  The tag count is the narrowing cast
`quint8(_tags.size())`. -/
def Message.toDataStream (m : Message) : List Tok :=
  let f := (m.initNotEmptyTraits).flags
  [Tok.uuid m.id, Tok.uuid m.command,
   Tok.u16 m.protocolVersionLow, Tok.u16 m.protocolVersionHigh, Tok.u32 f]
  ++ (if testBit1 f 31 then [Tok.u32 m.flags2] else [])
  ++ (if testBit1 f 11 then Tok.u8 (m.tags.length % 256) :: m.tags.map Tok.u64 else [])
  ++ (if testBit1 f 12 then [Tok.u64 m.maxTimeLife] else [])
  ++ (if testBit1 f 14 then [Tok.u64 m.proxyId] else [])
  ++ (if testBit1 f 15 then [Tok.bytes m.accessId] else [])
  ++ (if testBit1 f 13 then [Tok.bytes m.content] else [])

/-- `Message::fromDataStream`: read the fixed header into a fresh message,
then each optional trailing field exactly when its bit in the received flag
word is set; unread fields keep the constructor defaults.  Each step carries
the value read and the remaining stream. -/
def Message.fromDataStream (ts : List Tok) : Option (Message × List Tok) :=
  (readUuid ts).bind fun i =>
  (readUuid i.2).bind fun c =>
  (readU16 c.2).bind fun pvl =>
  (readU16 pvl.2).bind fun pvh =>
  (readU32 pvh.2).bind fun f =>
  (if testBit1 f.1 31 then readU32 f.2 else some (0, f.2)).bind fun f2 =>
  (if testBit1 f.1 11 then (readU8 f2.2).bind fun sz => readU64List sz.1 sz.2
   else some (([] : List Nat), f2.2)).bind fun tg =>
  (if testBit1 f.1 12 then readU64 tg.2 else some (u64Max, tg.2)).bind fun mtl =>
  (if testBit1 f.1 14 then readU64 mtl.2 else some (0, mtl.2)).bind fun pid =>
  (if testBit1 f.1 15 then readBytes pid.2 else some (([] : List Nat), pid.2)).bind fun acc =>
  (if testBit1 f.1 13 then readBytes acc.2 else some (([] : List Nat), acc.2)).bind fun cont =>
  some ({ Message.fresh with
            id := i.1
            command := c.1
            protocolVersionLow := pvl.1
            protocolVersionHigh := pvh.1
            flags := f.1
            flags2 := f2.1
            tags := tg.1
            maxTimeLife := mtl.1
            proxyId := pid.1
            accessId := acc.1
            content := cont.1 }, cont.2)

/-- The six not-empty bits of the recomputed flag word agree with the field
values. -/
theorem initNotEmptyTraits_flags (m : Message) :
    testBit1 (m.initNotEmptyTraits).flags 11 = !m.tags.isEmpty
    ∧ testBit1 (m.initNotEmptyTraits).flags 12 = (m.maxTimeLife != u64Max)
    ∧ testBit1 (m.initNotEmptyTraits).flags 13 = !m.content.isEmpty
    ∧ testBit1 (m.initNotEmptyTraits).flags 14 = (m.proxyId != 0)
    ∧ testBit1 (m.initNotEmptyTraits).flags 15 = !m.accessId.isEmpty
    ∧ testBit1 (m.initNotEmptyTraits).flags 31 = (m.flags2 != 0) := by
  refine ⟨?_, ?_, ?_, ?_, ?_, ?_⟩ <;> simp only [Message.initNotEmptyTraits]
  · rw [testBit1_setBits_other _ _ _ _ (by decide),
        testBit1_setBits_other _ _ _ _ (by decide),
        testBit1_setBits_other _ _ _ _ (by decide),
        testBit1_setBits_other _ _ _ _ (by decide),
        testBit1_setBits_self]
  · rw [testBit1_setBits_other _ _ _ _ (by decide),
        testBit1_setBits_other _ _ _ _ (by decide),
        testBit1_setBits_other _ _ _ _ (by decide),
        testBit1_setBits_self]
  · rw [testBit1_setBits_other _ _ _ _ (by decide),
        testBit1_setBits_other _ _ _ _ (by decide),
        testBit1_setBits_self]
  · rw [testBit1_setBits_other _ _ _ _ (by decide),
        testBit1_setBits_self]
  · rw [testBit1_setBits_self]
  · rw [testBit1_setBits_other _ _ _ _ (by decide),
        testBit1_setBits_other _ _ _ _ (by decide),
        testBit1_setBits_other _ _ _ _ (by decide),
        testBit1_setBits_other _ _ _ _ (by decide),
        testBit1_setBits_other _ _ _ _ (by decide),
        testBit1_setBits_self]

theorem readUuid_cons (n : Nat) (ts : List Tok) :
    readUuid (Tok.uuid n :: ts) = some (n, ts) := rfl

theorem readU16_cons (n : Nat) (ts : List Tok) :
    readU16 (Tok.u16 n :: ts) = some (n, ts) := rfl

theorem readU32_cons (n : Nat) (ts : List Tok) :
    readU32 (Tok.u32 n :: ts) = some (n, ts) := rfl

theorem readU64List_encode (tags : List Nat) (rest : List Tok) :
    readU64List tags.length (tags.map Tok.u64 ++ rest) = some (tags, rest) := by
  induction tags with
  | nil => rfl
  | cons a t ih => simp [readU64List, readU64, ih]

/-- Evaluation of one conditional `quint32` read against the matching
conditional write. -/
theorem readOptSegU32 (b : Bool) (v dflt : Nat) (rest : List Tok) :
    (if b then readU32 ((if b then [Tok.u32 v] else []) ++ rest)
     else some (dflt, (if b then [Tok.u32 v] else []) ++ rest))
      = some (if b then v else dflt, rest) := by
  cases b <;> simp [readU32]

/-- Evaluation of one conditional `quint64` read against the matching
conditional write. -/
theorem readOptSegU64 (b : Bool) (v dflt : Nat) (rest : List Tok) :
    (if b then readU64 ((if b then [Tok.u64 v] else []) ++ rest)
     else some (dflt, (if b then [Tok.u64 v] else []) ++ rest))
      = some (if b then v else dflt, rest) := by
  cases b <;> simp [readU64]

/-- Evaluation of one conditional byte-array read against the matching
conditional write. -/
theorem readOptSegBytes (b : Bool) (v dflt : List Nat) (rest : List Tok) :
    (if b then readBytes ((if b then [Tok.bytes v] else []) ++ rest)
     else some (dflt, (if b then [Tok.bytes v] else []) ++ rest))
      = some (if b then v else dflt, rest) := by
  cases b <;> simp [readBytes]

/-- Evaluation of the conditional tag-list read against the matching
conditional write. -/
theorem readOptSegTags (b : Bool) (tags : List Nat) (h : tags.length ≤ 255)
    (rest : List Tok) :
    (if b then
        (readU8 ((if b then Tok.u8 (tags.length % 256) :: tags.map Tok.u64 else []) ++ rest)).bind
          fun sz => readU64List sz.1 sz.2
     else some (([] : List Nat), (if b then Tok.u8 (tags.length % 256) :: tags.map Tok.u64 else []) ++ rest))
      = some (if b then tags else [], rest) := by
  have hlen : tags.length % 256 = tags.length := Nat.mod_eq_of_lt (by omega)
  cases b <;> simp [readU8, hlen, readU64List_encode]

set_option maxHeartbeats 3200000 in
/-- Deserializing a serialized message recovers every field (and the flag
word recomputed at send time), for any message whose tag list respects the
255-element bound. -/
theorem fromDataStream_toDataStream (m : Message) (h : m.tags.length ≤ 255)
    (rest : List Tok) :
    Message.fromDataStream (m.toDataStream ++ rest)
      = some ({ Message.fresh with
                id := m.id
                command := m.command
                protocolVersionLow := m.protocolVersionLow
                protocolVersionHigh := m.protocolVersionHigh
                flags := (m.initNotEmptyTraits).flags
                flags2 := m.flags2
                tags := m.tags
                maxTimeLife := m.maxTimeLife
                proxyId := m.proxyId
                accessId := m.accessId
                content := m.content }, rest) := by
  obtain ⟨h11, h12, h13, h14, h15, h31⟩ := initNotEmptyTraits_flags m
  unfold Message.toDataStream Message.fromDataStream
  simp only [List.cons_append, List.nil_append, List.append_assoc]
  simp only [readUuid_cons, readU16_cons, readU32_cons, Option.some_bind]
  simp only [readOptSegU32, readOptSegU64, readOptSegBytes,
             readOptSegTags _ _ h, Option.some_bind]
  simp only [h11, h12, h13, h14, h15, h31]
  by_cases c2 : m.flags2 = 0 <;>
  by_cases ct : m.tags = [] <;>
  by_cases cm : m.maxTimeLife = u64Max <;>
  by_cases cc : m.content = [] <;>
  by_cases cp : m.proxyId = 0 <;>
  by_cases ca : m.accessId = [] <;>
  simp_all


/-- Preservation of the flag-word bits outside the three overridden
sub-fields (type 0..2, execStatus 3..5, compression 8..10). -/
theorem cloneForAnswer_flags_outside (m : Message) (i : Nat)
    (hi : (6 ≤ i ∧ i ≤ 7) ∨ 11 ≤ i) :
    testBit1 (m.cloneForAnswer).flags i = testBit1 m.flags i := by
  unfold Message.cloneForAnswer Message.setType Message.setExecStatus Message.setCompression
  unfold testBit1
  rcases hi with ⟨h6, h7⟩ | h11
  · rw [getBits_setBits_below _ _ _ _ _ _ (by omega),
        getBits_setBits_above _ _ _ _ _ _ (by omega),
        getBits_setBits_above _ _ _ _ _ _ (by omega)]
  · rw [getBits_setBits_above _ _ _ _ _ _ (by omega),
        getBits_setBits_above _ _ _ _ _ _ (by omega),
        getBits_setBits_above _ _ _ _ _ _ (by omega)]

/-- C5: `cloneForAnswer` preserves id, command, protocol versions, flags2,
tags, maxTimeLife, proxyId, accessId and the socket metadata; it preserves
the flag word outside the three sub-fields it overrides (including priority
and contentFormat); it sets type Answer, execStatus Success, compression
None; and its content and destination collections are empty. -/
theorem claim_C5_cloneForAnswer (m : Message) :
    (m.cloneForAnswer).id = m.id
    ∧ (m.cloneForAnswer).command = m.command
    ∧ (m.cloneForAnswer).protocolVersionLow = m.protocolVersionLow
    ∧ (m.cloneForAnswer).protocolVersionHigh = m.protocolVersionHigh
    ∧ (m.cloneForAnswer).flags2 = m.flags2
    ∧ (m.cloneForAnswer).tags = m.tags
    ∧ (m.cloneForAnswer).maxTimeLife = m.maxTimeLife
    ∧ (m.cloneForAnswer).proxyId = m.proxyId
    ∧ (m.cloneForAnswer).accessId = m.accessId
    ∧ (m.cloneForAnswer).socketType = m.socketType
    ∧ (m.cloneForAnswer).sourcePoint = m.sourcePoint
    ∧ (m.cloneForAnswer).socketDescriptor = m.socketDescriptor
    ∧ (m.cloneForAnswer).socketName = m.socketName
    ∧ (m.cloneForAnswer).auxiliary = m.auxiliary
    ∧ (m.cloneForAnswer).priority = m.priority
    ∧ (m.cloneForAnswer).contentFormat = m.contentFormat
    ∧ (∀ i, (6 ≤ i ∧ i ≤ 7) ∨ 11 ≤ i →
        testBit1 (m.cloneForAnswer).flags i = testBit1 m.flags i)
    ∧ (m.cloneForAnswer).type = typeAnswer
    ∧ (m.cloneForAnswer).execStatus = execStatusSuccess
    ∧ (m.cloneForAnswer).compression = compressionNone
    ∧ (m.cloneForAnswer).content = []
    ∧ (m.cloneForAnswer).destinationPoints = []
    ∧ (m.cloneForAnswer).destinationSockets = [] := by
  refine ⟨rfl, rfl, rfl, rfl, rfl, rfl, rfl, rfl, rfl, rfl, rfl, rfl, rfl, rfl,
          ?_, ?_, ?_, ?_, ?_, ?_, rfl, rfl, rfl⟩
  · show getBits (m.cloneForAnswer).flags 6 2 = getBits m.flags 6 2
    unfold Message.cloneForAnswer Message.setType Message.setExecStatus Message.setCompression
    rw [getBits_setBits_below _ _ _ _ _ _ (by omega),
        getBits_setBits_above _ _ _ _ _ _ (by omega),
        getBits_setBits_above _ _ _ _ _ _ (by omega)]
  · show getBits (m.cloneForAnswer).flags 24 3 = getBits m.flags 24 3
    unfold Message.cloneForAnswer Message.setType Message.setExecStatus Message.setCompression
    rw [getBits_setBits_above _ _ _ _ _ _ (by omega),
        getBits_setBits_above _ _ _ _ _ _ (by omega),
        getBits_setBits_above _ _ _ _ _ _ (by omega)]
  · exact fun i hi => cloneForAnswer_flags_outside m i hi
  · show getBits (m.cloneForAnswer).flags 0 3 = typeAnswer
    unfold Message.cloneForAnswer Message.setType Message.setExecStatus Message.setCompression
    rw [getBits_setBits_below _ _ _ _ _ _ (by omega),
        getBits_setBits_below _ _ _ _ _ _ (by omega),
        getBits_setBits_self]
    decide
  · show getBits (m.cloneForAnswer).flags 3 3 = execStatusSuccess
    unfold Message.cloneForAnswer Message.setType Message.setExecStatus Message.setCompression
    rw [getBits_setBits_below _ _ _ _ _ _ (by omega),
        getBits_setBits_self]
    decide
  · show getBits (m.cloneForAnswer).flags 8 3 = compressionNone
    unfold Message.cloneForAnswer Message.setType Message.setExecStatus Message.setCompression
    rw [getBits_setBits_self]
    decide

/-- C2: the five not-empty bits (plus flags2_not_empty) are recomputed from
the field values before serialization (bit set iff the field is present),
the serializer writes each optional trailing field exactly when its bit is
set, and deserializing the produced stream reads back exactly the written
fields (absent fields keep their defaults), recovering the message. -/
theorem claim_C2_notEmptyBits (m : Message) (h : m.tags.length ≤ 255)
    (rest : List Tok) :
    ((testBit1 (m.initNotEmptyTraits).flags 11 = true) ↔ m.tags ≠ [])
    ∧ ((testBit1 (m.initNotEmptyTraits).flags 12 = true) ↔ m.maxTimeLife ≠ u64Max)
    ∧ ((testBit1 (m.initNotEmptyTraits).flags 13 = true) ↔ m.content ≠ [])
    ∧ ((testBit1 (m.initNotEmptyTraits).flags 14 = true) ↔ m.proxyId ≠ 0)
    ∧ ((testBit1 (m.initNotEmptyTraits).flags 15 = true) ↔ m.accessId ≠ [])
    ∧ ((testBit1 (m.initNotEmptyTraits).flags 31 = true) ↔ m.flags2 ≠ 0)
    ∧ m.toDataStream =
        [Tok.uuid m.id, Tok.uuid m.command, Tok.u16 m.protocolVersionLow,
         Tok.u16 m.protocolVersionHigh, Tok.u32 (m.initNotEmptyTraits).flags]
        ++ (if testBit1 (m.initNotEmptyTraits).flags 31 then [Tok.u32 m.flags2] else [])
        ++ (if testBit1 (m.initNotEmptyTraits).flags 11 then Tok.u8 (m.tags.length % 256) :: m.tags.map Tok.u64 else [])
        ++ (if testBit1 (m.initNotEmptyTraits).flags 12 then [Tok.u64 m.maxTimeLife] else [])
        ++ (if testBit1 (m.initNotEmptyTraits).flags 14 then [Tok.u64 m.proxyId] else [])
        ++ (if testBit1 (m.initNotEmptyTraits).flags 15 then [Tok.bytes m.accessId] else [])
        ++ (if testBit1 (m.initNotEmptyTraits).flags 13 then [Tok.bytes m.content] else [])
    ∧ Message.fromDataStream (m.toDataStream ++ rest)
        = some ({ Message.fresh with
                  id := m.id
                  command := m.command
                  protocolVersionLow := m.protocolVersionLow
                  protocolVersionHigh := m.protocolVersionHigh
                  flags := (m.initNotEmptyTraits).flags
                  flags2 := m.flags2
                  tags := m.tags
                  maxTimeLife := m.maxTimeLife
                  proxyId := m.proxyId
                  accessId := m.accessId
                  content := m.content }, rest) := by
  obtain ⟨h11, h12, h13, h14, h15, h31⟩ := initNotEmptyTraits_flags m
  refine ⟨?_, ?_, ?_, ?_, ?_, ?_, rfl, fromDataStream_toDataStream m h rest⟩
  · rw [h11]; cases m.tags <;> simp
  · rw [h12]; simp [bne_iff_ne]
  · rw [h13]; cases m.content <;> simp
  · rw [h14]; simp [bne_iff_ne]
  · rw [h15]; cases m.accessId <;> simp
  · rw [h31]; simp [bne_iff_ne]

/-- A concrete message exercising both present and absent optional fields. -/
def mC2 : Message :=
  { Message.fresh with
    id := 10
    command := 22
    flags2 := 5
    tags := [1, 2]
    maxTimeLife := 77
    proxyId := 0
    accessId := []
    content := [9] }

theorem claim_C2_notEmptyBits_witness :
    mC2.tags.length ≤ 255
    ∧ ((testBit1 (mC2.initNotEmptyTraits).flags 11 = true) ↔ mC2.tags ≠ [])
    ∧ Message.fromDataStream (mC2.toDataStream ++ [])
        = some ({ Message.fresh with
                  id := mC2.id
                  command := mC2.command
                  protocolVersionLow := mC2.protocolVersionLow
                  protocolVersionHigh := mC2.protocolVersionHigh
                  flags := (mC2.initNotEmptyTraits).flags
                  flags2 := mC2.flags2
                  tags := mC2.tags
                  maxTimeLife := mC2.maxTimeLife
                  proxyId := mC2.proxyId
                  accessId := mC2.accessId
                  content := mC2.content }, []) :=
  ⟨by decide, (claim_C2_notEmptyBits mC2 (by decide) []).1,
   (claim_C2_notEmptyBits mC2 (by decide) []).2.2.2.2.2.2.2⟩

/-- C6: `setTags` stores a vector of at most 255 tags unchanged without
logging; a 255-element tag list round-trips through serialization; a longer
vector is truncated to exactly its first 255 elements with an error log. -/
theorem claim_C6_setTags :
    (∀ (m : Message) (val : List Nat), val.length ≤ 255 →
        m.setTags val = ({ m with tags := val }, []))
    ∧ (∀ (m : Message) (val : List Nat) (rest : List Tok), val.length = 255 →
        ((Message.fromDataStream (((m.setTags val).1).toDataStream ++ rest)).map
            fun p => p.1.tags) = some val)
    ∧ (∀ (m : Message) (val : List Nat), val.length > 255 →
        m.setTags val = ({ m with tags := val.take 255 }, [LogLevel.error])
        ∧ (val.take 255).length = 255) := by
  refine ⟨?_, ?_, ?_⟩
  · intro m val hv
    have hc : ¬ (val.length > 255) := by omega
    simp [Message.setTags, hc]
  · intro m val rest hv
    have hc : ¬ (val.length > 255) := by omega
    have hm : m.setTags val = ({ m with tags := val }, []) := by
      simp [Message.setTags, hc]
    rw [hm]
    rw [fromDataStream_toDataStream _ (by simp [hv]) rest]
    simp
  · intro m val hv
    constructor
    · simp [Message.setTags, hv]
    · simp [List.length_take]
      omega

set_option maxRecDepth 8192 in
theorem claim_C6_setTags_witness :
    (List.replicate 256 (7 : Nat)).length > 255
    ∧ Message.fresh.setTags (List.replicate 256 7)
        = ({ Message.fresh with tags := (List.replicate 256 7).take 255 }, [LogLevel.error])
    ∧ (List.replicate 255 (7 : Nat)).length = 255
    ∧ ((Message.fromDataStream (((Message.fresh.setTags (List.replicate 255 7)).1).toDataStream ++ [])).map
        fun p => p.1.tags) = some (List.replicate 255 7) :=
  ⟨by decide,
   ((claim_C6_setTags.2.2) Message.fresh (List.replicate 256 7) (by decide)).1,
   by decide,
   (claim_C6_setTags.2.1) Message.fresh (List.replicate 255 7) [] (by decide)⟩

/-- C10: `tag` and `setTag` are total over all integer indices: outside
[0, 254] they log an error and return 0 / leave the message unchanged; at an
in-range index at or beyond the current length, `tag` returns 0 while
`setTag` grows the list to index+1 elements storing the value at the index;
and `setTag` never pushes a ≤255-element tag list beyond 255 elements. -/
theorem claim_C10_tag_setTag :
    (∀ (m : Message) (index : Int), (index < 0 ∨ 254 < index) →
        m.tag index = (0, [LogLevel.error])
        ∧ ∀ val, m.setTag val index = (m, [LogLevel.error]))
    ∧ (∀ (m : Message) (index : Int), 0 ≤ index → index ≤ 254 →
        (m.tags.length : Int) ≤ index →
        (m.tag index).1 = 0
        ∧ ∀ val, ((m.setTag val index).1.tags.length = index.toNat + 1
                  ∧ (m.setTag val index).1.tags.getD index.toNat 0 = val))
    ∧ (∀ (m : Message) (index : Int) (val : Nat), m.tags.length ≤ 255 →
        ((m.setTag val index).1.tags.length ≤ 255)) := by
  refine ⟨?_, ?_, ?_⟩
  · intro m index hout
    have hr : lstInRange index 0 255 = false := by
      simp [lstInRange]
      omega
    exact ⟨by simp [Message.tag, hr], fun val => by simp [Message.setTag, hr]⟩
  · intro m index h0 h254 hlen
    have hr : lstInRange index 0 255 = true := by
      simp [lstInRange]
      omega
    have hge : (m.tags.length : Int) ≤ index := hlen
    refine ⟨by simp [Message.tag, hr, hge], fun val => ?_⟩
    have hlen2 : m.tags.length ≤ index.toNat := by omega
    constructor
    · simp [Message.setTag, hr, hge, List.length_set, List.length_append,
            List.length_replicate]
      omega
    · simp only [Message.setTag, hr, Bool.not_true, Bool.false_eq_true,
                 if_false, ge_iff_le, hge, if_true, if_pos hge]
      have hbound : index.toNat <
          (m.tags ++ List.replicate (index.toNat + 1 - m.tags.length) 0).length := by
        simp [List.length_append, List.length_replicate]
        omega
      rw [List.getD_eq_getElem _ _ (by simpa [List.length_set] using hbound)]
      simp [List.getElem_set_self]
  · intro m index val hlen
    by_cases hr : lstInRange index 0 255
    · have hin : 0 ≤ index ∧ index < 255 := by
        constructor <;> [skip; skip] <;>
        · have := hr
          simp [lstInRange] at this
          omega
      by_cases hge : (m.tags.length : Int) ≤ index
      · simp [Message.setTag, hr, hge, List.length_set, List.length_append,
              List.length_replicate]
        omega
      · simp [Message.setTag, hr, hge, List.length_set]
        omega
    · simp [Message.setTag, hr]
      omega

theorem claim_C10_tag_setTag_witness :
    ((300 : Int) < 0 ∨ (254 : Int) < 300)
    ∧ Message.fresh.tag 300 = (0, [LogLevel.error])
    ∧ ((0 : Int) ≤ 5 ∧ (5 : Int) ≤ 254 ∧ ((Message.fresh.tags.length : Int) ≤ 5))
    ∧ (Message.fresh.setTag 9 5).1.tags.length = (5 : Int).toNat + 1 :=
  ⟨by decide,
   (claim_C10_tag_setTag.1 Message.fresh 300 (by decide)).1,
   ⟨by decide, by decide, by decide⟩,
   ((claim_C10_tag_setTag.2.1 Message.fresh 5 (by decide) (by decide) (by decide)).2 9).1⟩

/-! ## Send-queue prioritization (src/transport/base.cpp `Socket::run`,
lines 911-947; the identical block appears in src/transport/udp.cpp
`udp::Socket::run`, lines 211-243). -/

/-- The three per-socket FIFO queues and the counter
`SocketCommon::_messagesNormCounter`. -/
structure SendQueues (M : Type) where
  messagesHigh : List M
  messagesNorm : List M
  messagesLow : List M
  messagesNormCounter : Nat
deriving DecidableEq

/-- One round of the message-prioritization block: High first; else Normal
while the counter is below 5 (incrementing it); else reset the counter and
prefer Low, falling back to Normal; else Low. `release(0)` takes the head
of the queue. -/
def selectMessage {M : Type} (s : SendQueues M) : Option M × SendQueues M :=
  match s.messagesHigh with
  | m :: hs => (some m, { s with messagesHigh := hs })
  | [] =>
    match s.messagesNorm with
    | m :: ns =>
      if s.messagesNormCounter < 5 then
        (some m, { s with messagesNorm := ns,
                          messagesNormCounter := s.messagesNormCounter + 1 })
      else
        match s.messagesLow with
        | l :: ls => (some l, { s with messagesLow := ls, messagesNormCounter := 0 })
        | [] => (some m, { s with messagesNorm := ns, messagesNormCounter := 0 })
    | [] =>
      match s.messagesLow with
      | l :: ls => (some l, { s with messagesLow := ls })
      | [] => (none, s)

/-- Iterate the prioritization block, collecting the emitted messages in
order (the loop breaks when no message is available). -/
def runQueue {M : Type} : SendQueues M → Nat → List M × SendQueues M
  | s, 0 => ([], s)
  | s, n + 1 =>
    match selectMessage s with
    | (none, s1) => ([], s1)
    | (some m, s1) =>
      let r := runQueue s1 n
      (m :: r.1, r.2)

/-- The emission pattern the spec predicts with High empty: five Normal
then one Low, repeating. -/
def weave {M : Type} (norm low : List M) : Nat → List M
  | 0 => []
  | k + 1 => norm.take 5 ++ low.take 1 ++ weave (norm.drop 5) (low.drop 1) k

theorem runQueue_weave {M : Type} (k : Nat) (norm low : List M)
    (hn : 5 * k ≤ norm.length) (hl : k ≤ low.length) :
    (runQueue ⟨[], norm, low, 0⟩ (6 * k)).1 = weave norm low k
    ∧ (runQueue ⟨[], norm, low, 0⟩ (6 * k)).2.messagesHigh = []
    ∧ (runQueue ⟨[], norm, low, 0⟩ (6 * k)).2.messagesNorm = norm.drop (5 * k)
    ∧ (runQueue ⟨[], norm, low, 0⟩ (6 * k)).2.messagesLow = low.drop k := by
  induction k generalizing norm low with
  | zero => simp [runQueue, weave]
  | succ j ih =>
    rcases norm with _ | ⟨n1, norm⟩
    · simp at hn <;> omega
    rcases norm with _ | ⟨n2, norm⟩
    · simp at hn <;> omega
    rcases norm with _ | ⟨n3, norm⟩
    · simp at hn <;> omega
    rcases norm with _ | ⟨n4, norm⟩
    · simp at hn <;> omega
    rcases norm with _ | ⟨n5, norm⟩
    · simp at hn <;> omega
    rcases low with _ | ⟨l1, low⟩
    · simp at hl <;> omega
    have h6 : 6 * (j + 1) = 6 * j + 1 + 1 + 1 + 1 + 1 + 1 := by ring
    rw [h6]
    have h5 : 5 * (j + 1) = 5 * j + 1 + 1 + 1 + 1 + 1 := by ring
    rw [h5]
    simp only [runQueue, selectMessage]
    norm_num
    rcases norm with _ | ⟨n6, norm⟩
    · have hj : j = 0 := by simp at hn; omega
      subst hj
      simp [runQueue, weave]
    · have hn2 : 5 * j ≤ (n6 :: norm).length := by simp at hn ⊢; omega
      have hl2 : j ≤ low.length := by simp at hl; omega
      obtain ⟨ih1, ih2, ih3, ih4⟩ := ih (n6 :: norm) low hn2 hl2
      simp only [List.drop_succ_cons]
      refine ⟨?_, ?_, ?_, ?_⟩
      · simp only [ih1]
        simp [weave]
      · exact ih2
      · exact ih3
      · exact ih4

/-- C1: the next message is chosen High-first; else Normal while the
internal counter is below 5 (incrementing it); else, with Normal non-empty
and the counter exhausted, the counter resets and Low is preferred with
Normal as fallback; else Low.  Consequently, starting with High empty,
counter 0, and enough Normal and Low messages, the emitted sequence is five
Normal then one Low, repeating, in FIFO order within each queue. -/
theorem claim_C1_scheduler (M : Type) :
    (∀ (s : SendQueues M) (m : M) (hs : List M), s.messagesHigh = m :: hs →
        selectMessage s = (some m, { s with messagesHigh := hs }))
    ∧ (∀ (s : SendQueues M) (m : M) (ns : List M),
        s.messagesHigh = [] → s.messagesNorm = m :: ns → s.messagesNormCounter < 5 →
        selectMessage s
          = (some m, { s with messagesNorm := ns, messagesNormCounter := s.messagesNormCounter + 1 }))
    ∧ (∀ (s : SendQueues M) (m : M) (ns : List M) (l : M) (ls : List M),
        s.messagesHigh = [] → s.messagesNorm = m :: ns → ¬ s.messagesNormCounter < 5 →
        s.messagesLow = l :: ls →
        selectMessage s = (some l, { s with messagesLow := ls, messagesNormCounter := 0 }))
    ∧ (∀ (s : SendQueues M) (m : M) (ns : List M),
        s.messagesHigh = [] → s.messagesNorm = m :: ns → ¬ s.messagesNormCounter < 5 →
        s.messagesLow = [] →
        selectMessage s = (some m, { s with messagesNorm := ns, messagesNormCounter := 0 }))
    ∧ (∀ (s : SendQueues M) (l : M) (ls : List M),
        s.messagesHigh = [] → s.messagesNorm = [] → s.messagesLow = l :: ls →
        selectMessage s = (some l, { s with messagesLow := ls }))
    ∧ (∀ (k : Nat) (norm low : List M), 5 * k ≤ norm.length → k ≤ low.length →
        (runQueue ⟨[], norm, low, 0⟩ (6 * k)).1 = weave norm low k) := by
  refine ⟨?_, ?_, ?_, ?_, ?_, ?_⟩
  · intro s m hs hh
    simp [selectMessage, hh]
  · intro s m ns hh hn hc
    simp [selectMessage, hh, hn, hc]
  · intro s m ns l ls hh hn hc hl
    simp [selectMessage, hh, hn, hc, hl]
  · intro s m ns hh hn hc hl
    simp [selectMessage, hh, hn, hc, hl]
  · intro s l ls hh hn hl
    simp [selectMessage, hh, hn, hl]
  · intro k norm low hn hl
    exact (runQueue_weave k norm low hn hl).1

theorem claim_C1_scheduler_witness :
    5 * 2 ≤ ([0, 1, 2, 3, 4, 5, 6, 7, 8, 9] : List Nat).length
    ∧ 2 ≤ ([100, 101] : List Nat).length
    ∧ (runQueue ⟨[], [0, 1, 2, 3, 4, 5, 6, 7, 8, 9], [100, 101], 0⟩ (6 * 2)).1
        = weave [0, 1, 2, 3, 4, 5, 6, 7, 8, 9] [100, 101] 2
    ∧ weave ([0, 1, 2, 3, 4, 5, 6, 7, 8, 9] : List Nat) [100, 101] 2
        = [0, 1, 2, 3, 4, 100, 5, 6, 7, 8, 9, 101] :=
  ⟨by decide, by decide,
   (claim_C1_scheduler Nat).2.2.2.2.2 2 [0, 1, 2, 3, 4, 5, 6, 7, 8, 9] [100, 101]
     (by decide) (by decide),
   by decide⟩

/-! ## Properties, outbound compression and unencrypted framing
(src/transport/base.h lines 55-110, src/transport/base.cpp `Socket::run`). -/

/-- `base::Properties` of src/transport/base.h with its member
initializers. -/
structure Properties where
  compressionLevel : Int
  compressionSize : Int
  checkProtocolCompatibility : Bool
  onlyEncrypted : Bool
  messageWebFlags : Bool
deriving DecidableEq

/-- The default-constructed `Properties` (member initializers
`_compressionLevel = 0`, `_compressionSize = 1024`, ...). -/
def Properties.defaults : Properties where
  compressionLevel := 0
  compressionSize := 1024
  checkProtocolCompatibility := true
  onlyEncrypted := false
  messageWebFlags := false

/-- Qt `qBound(min, val, max)`. -/
def qBound (lo v hi : Int) : Int :=
  max lo (min v hi)

/-- `Properties::setCompressionLevel`: clamp to [-1..9]. -/
def Properties.setCompressionLevel (p : Properties) (val : Int) : Properties :=
  { p with compressionLevel := qBound (-1) val 9 }

/-- `Properties::setCompressionSize`. -/
def Properties.setCompressionSize (p : Properties) (val : Int) : Properties :=
  { p with compressionSize := val }

/-- The outbound compression step of `Socket::run` (base.cpp lines
1011-1026): compress the serialized buffer with `qCompress` at
`_compressionLevel` exactly when the socket is not local, the message
carries no compression, the buffer strictly exceeds `_compressionSize`, and
the level is non-zero.  `zip` stands for the external `qCompress`. -/
def compressStep (zip : Int → List Nat → List Nat) (isLocal : Bool)
    (p : Properties) (msgCompression : Nat) (buff : List Nat) : List Nat × Bool :=
  if isLocal = false ∧ msgCompression = compressionNone
     ∧ (buff.length : Int) > p.compressionSize ∧ p.compressionLevel ≠ 0
  then (zip p.compressionLevel buff, true)
  else (buff, false)

/-- Unencrypted outbound framing (base.cpp lines 1101-1115): the length
prefix is the body size, negated when the body was compressed.  (The
unconditional big-endian byte swap is value-preserving end to end and is
not modelled.) -/
def frameOut (buff : List Nat) (isCompressed : Bool) : Int × List Nat :=
  (if isCompressed then -(buff.length : Int) else (buff.length : Int), buff)

/-- Unencrypted inbound deframing (base.cpp lines 1164-1171 and 1244-1247):
read `qAbs(length)` body bytes, then decompress exactly when the received
length prefix is negative.  `uncompress` stands for `qUncompress`. -/
def frameIn (uncompress : List Nat → List Nat) (buffSize : Int)
    (stream : List Nat) : List Nat × List Nat :=
  let readBuff := stream.take buffSize.natAbs
  ((if buffSize < 0 then uncompress readBuff else readBuff), stream.drop buffSize.natAbs)

/-- C3: in unencrypted mode the prefix sign encodes the compression state
(raw positive, zipped negative), its absolute value is the number of body
bytes that follow, and the receiver (who decompresses exactly when the
prefix is negative) recovers the original serialized body. -/
theorem claim_C3_framing (zip uz : List Nat → List Nat) (body rest : List Nat)
    (hinv : uz (zip body) = body) (hbody : body ≠ []) (hzip : zip body ≠ [])
    (c : Bool) :
    (c = true → (frameOut (if c then zip body else body) c).1 < 0)
    ∧ (c = false → 0 < (frameOut (if c then zip body else body) c).1)
    ∧ (frameOut (if c then zip body else body) c).1.natAbs
        = (if c then zip body else body).length
    ∧ frameIn uz (frameOut (if c then zip body else body) c).1
        ((frameOut (if c then zip body else body) c).2 ++ rest)
        = (body, rest) := by
  cases c
  · refine ⟨by simp, fun _ => ?_, by simp [frameOut], ?_⟩
    · have : 0 < body.length := List.length_pos.mpr hbody
      simp [frameOut]
      omega
    · have hlt : ¬ ((body.length : Int) < 0) := by omega
      simp [frameOut, frameIn, hlt]
  · have : 0 < (zip body).length := List.length_pos.mpr hzip
    refine ⟨fun _ => ?_, by simp, by simp [frameOut], ?_⟩
    · simp [frameOut]
      omega
    · have hneg : (-(((zip body).length : Nat) : Int)) < 0 := by omega
      simp [frameOut, frameIn, hneg, hinv]

theorem claim_C3_framing_witness :
    (fun l => List.drop 1 l) (( fun l => 0 :: l) [1, 2, 3]) = [1, 2, 3]
    ∧ ([1, 2, 3] : List Nat) ≠ []
    ∧ (fun l => (0 : Nat) :: l) [1, 2, 3] ≠ []
    ∧ frameIn (fun l => List.drop 1 l)
        (frameOut (if true then (fun l => (0 : Nat) :: l) [1, 2, 3] else [1, 2, 3]) true).1
        ((frameOut (if true then (fun l => (0 : Nat) :: l) [1, 2, 3] else [1, 2, 3]) true).2 ++ [7])
        = ([1, 2, 3], [7]) :=
  ⟨by decide, by decide, by decide,
   (claim_C3_framing (fun l => 0 :: l) (fun l => List.drop 1 l) [1, 2, 3] [7]
      (by decide) (by decide) (by decide) true).2.2.2⟩

/-- C4 counterexample: the default compression level is 0, not -1 as the
claim states (src/transport/base.h line 104, `int _compressionLevel = {0}`,
documented there as "default value 0"). -/
theorem claim_C4_counterexample :
    Properties.defaults.compressionLevel = 0
    ∧ Properties.defaults.compressionLevel ≠ -1 := by
  constructor
  · rfl
  · decide

/-- C4 (amended): a serialized message is compressed iff the socket is not
local, the message compression flag is None, the size strictly exceeds
compressionSize (at exactly compressionSize nothing happens) and the level
is non-zero; the level used is compressionLevel, whose default is 0
(compression disabled by default) and which the setter clamps to [-1..9];
compressionSize defaults to 1024. -/
theorem claim_C4_compression (zip : Int → List Nat → List Nat)
    (isLocal : Bool) (p : Properties) (mc : Nat) (buff : List Nat) :
    ((compressStep zip isLocal p mc buff).2 = true
      ↔ (isLocal = false ∧ mc = compressionNone
         ∧ (buff.length : Int) > p.compressionSize ∧ p.compressionLevel ≠ 0))
    ∧ ((compressStep zip isLocal p mc buff).2 = true →
        (compressStep zip isLocal p mc buff).1 = zip p.compressionLevel buff)
    ∧ ((compressStep zip isLocal p mc buff).2 = false →
        (compressStep zip isLocal p mc buff).1 = buff)
    ∧ ((buff.length : Int) = p.compressionSize →
        (compressStep zip isLocal p mc buff).2 = false)
    ∧ Properties.defaults.compressionLevel = 0
    ∧ Properties.defaults.compressionSize = 1024
    ∧ (∀ v : Int, -1 ≤ (p.setCompressionLevel v).compressionLevel
                  ∧ (p.setCompressionLevel v).compressionLevel ≤ 9)
    ∧ (∀ v : Int, -1 ≤ v → v ≤ 9 → (p.setCompressionLevel v).compressionLevel = v) := by
  unfold compressStep
  by_cases hc : isLocal = false ∧ mc = compressionNone
      ∧ (buff.length : Int) > p.compressionSize ∧ p.compressionLevel ≠ 0
  · refine ⟨by simp [hc], by simp [hc], by simp [hc], ?_, rfl, rfl, ?_, ?_⟩
    · intro hb
      exfalso
      obtain ⟨-, -, hgt, -⟩ := hc
      omega
    · intro v
      constructor <;> simp [Properties.setCompressionLevel, qBound] <;> omega
    · intro v hv1 hv9
      simp [Properties.setCompressionLevel, qBound]
      omega
  · refine ⟨by simp [hc], by simp [hc], by simp [hc], by simp [hc], rfl, rfl, ?_, ?_⟩
    · intro v
      constructor <;> simp [Properties.setCompressionLevel, qBound] <;> omega
    · intro v hv1 hv9
      simp [Properties.setCompressionLevel, qBound]
      omega

theorem claim_C4_compression_witness :
    ((List.replicate 1025 (0 : Nat)).length : Int) > Properties.defaults.compressionSize
    ∧ ((compressStep (fun _ l => l.take 8) false
          (Properties.defaults.setCompressionLevel 6) compressionNone
          (List.replicate 1025 0)).2 = true
        ↔ (false = false ∧ compressionNone = compressionNone
           ∧ ((List.replicate 1025 (0 : Nat)).length : Int)
               > (Properties.defaults.setCompressionLevel 6).compressionSize
           ∧ (Properties.defaults.setCompressionLevel 6).compressionLevel ≠ 0))
    ∧ (-1 ≤ (Properties.defaults.setCompressionLevel 20).compressionLevel
       ∧ (Properties.defaults.setCompressionLevel 20).compressionLevel ≤ 9) :=
  ⟨by norm_num [Properties.defaults],
   (claim_C4_compression (fun _ l => l.take 8) false
      (Properties.defaults.setCompressionLevel 6) compressionNone
      (List.replicate 1025 0)).1,
   (claim_C4_compression (fun _ l => l.take 8) false Properties.defaults
      compressionNone []).2.2.2.2.2.2.1 20⟩

/-! ## SocketCommon::send and the peer-unknown command set
(src/transport/base.cpp lines 65-120 and 1353-1380). -/

/-- The `SocketCommon` state relevant to sending: the running flag, the
check flag, the `_unknownCommands` set and the three priority queues. -/
structure SocketCommon where
  isRunning : Bool
  checkUnknownCommands : Bool
  unknownCommands : List Nat
  messagesHigh : List Message
  messagesNorm : List Message
  messagesLow : List Message
deriving DecidableEq

/-- `SocketCommon::send`: reject with an ERROR log when the socket is not
running or (with the check enabled) when the command is in the peer-unknown
set; otherwise append the message to the queue of its priority. -/
def SocketCommon.send (s : SocketCommon) (m : Message) : Bool × SocketCommon × List LogLevel :=
  if s.isRunning = false then (false, s, [LogLevel.error])
  else if s.checkUnknownCommands = true ∧ m.command ∈ s.unknownCommands then
    (false, s, [LogLevel.error])
  else
    (true,
     if m.priority = priorityHigh then { s with messagesHigh := s.messagesHigh ++ [m] }
     else if m.priority = priorityLow then { s with messagesLow := s.messagesLow ++ [m] }
     else { s with messagesNorm := s.messagesNorm ++ [m] },
     [])

/-- `Socket::run`, Unknown handling: a received `command::Unknown`
notification carrying a valid command id inserts that id into
`_unknownCommands` (with an ERROR log). -/
def SocketCommon.handleUnknown (s : SocketCommon) (c : Nat) : SocketCommon × List LogLevel :=
  ({ s with unknownCommands := s.unknownCommands.insert c }, [LogLevel.error])

/-- A sequence of later `send` calls (each message keeps the state the call
returned). -/
def SocketCommon.sendAll (s : SocketCommon) (ms : List Message) : SocketCommon :=
  ms.foldl (fun st m => (SocketCommon.send st m).2.1) s

theorem send_preserves_unknown (s : SocketCommon) (m : Message) :
    ((s.send m).2.1).unknownCommands = s.unknownCommands
    ∧ ((s.send m).2.1).checkUnknownCommands = s.checkUnknownCommands := by
  unfold SocketCommon.send
  split
  · exact ⟨rfl, rfl⟩
  split
  · exact ⟨rfl, rfl⟩
  split
  · exact ⟨rfl, rfl⟩
  split <;> exact ⟨rfl, rfl⟩

theorem sendAll_preserves_unknown (ms : List Message) (s : SocketCommon) :
    (s.sendAll ms).unknownCommands = s.unknownCommands
    ∧ (s.sendAll ms).checkUnknownCommands = s.checkUnknownCommands := by
  induction ms generalizing s with
  | nil => exact ⟨rfl, rfl⟩
  | cons m ms ih =>
    have h1 := send_preserves_unknown s m
    have h2 := ih ((s.send m).2.1)
    unfold SocketCommon.sendAll at h2 ⊢
    simp only [List.foldl_cons]
    exact ⟨h2.1.trans h1.1, h2.2.trans h1.2⟩

/-- C7: after an Unknown notification for command id `c`, `c` is in the
peer-unknown set, and any later `send` (after any other sends) of a message
with command `c`, with checkUnknownCommands enabled, returns false, logs at
ERROR, and leaves all three queues (and the rest of the state) unchanged. -/
theorem claim_C7_unknownCommands (s : SocketCommon) (c : Nat)
    (hchk : s.checkUnknownCommands = true) :
    c ∈ ((s.handleUnknown c).1).unknownCommands
    ∧ (∀ (ms : List Message) (m : Message), m.command = c →
        SocketCommon.send (SocketCommon.sendAll (s.handleUnknown c).1 ms) m
          = (false, SocketCommon.sendAll (s.handleUnknown c).1 ms, [LogLevel.error])) := by
  constructor
  · simp [SocketCommon.handleUnknown, List.mem_insert_iff]
  · intro ms m hm
    set s2 := SocketCommon.sendAll (s.handleUnknown c).1 ms with hs2
    have hpres := sendAll_preserves_unknown ms (s.handleUnknown c).1
    have hmem : m.command ∈ s2.unknownCommands := by
      rw [hs2, hpres.1]
      simp [SocketCommon.handleUnknown, hm, List.mem_insert_iff]
    have hchk2 : s2.checkUnknownCommands = true := by
      rw [hs2, hpres.2]
      simp [SocketCommon.handleUnknown, hchk]
    unfold SocketCommon.send
    by_cases hrun : s2.isRunning = false
    · simp [hrun]
    · simp [hrun, hchk2, hmem]

theorem claim_C7_unknownCommands_witness :
    (⟨true, true, [], [], [], []⟩ : SocketCommon).checkUnknownCommands = true
    ∧ SocketCommon.send
        (SocketCommon.sendAll ((⟨true, true, [], [], [], []⟩ : SocketCommon).handleUnknown 42).1
          [{ Message.fresh with command := 7 }])
        { Message.fresh with command := 42 }
        = (false,
           SocketCommon.sendAll ((⟨true, true, [], [], [], []⟩ : SocketCommon).handleUnknown 42).1
             [{ Message.fresh with command := 7 }],
           [LogLevel.error]) :=
  ⟨rfl,
   (claim_C7_unknownCommands ⟨true, true, [], [], [], []⟩ 42 rfl).2
     [{ Message.fresh with command := 7 }] { Message.fresh with command := 42 } rfl⟩

/-! ## Two-point forwarder (src/routing.cpp, RouteCommands::forwarding). -/

/-- A forwarder endpoint: optional socket (by descriptor) and the FIFO of
`(forwarded message id, expiry unix seconds)` pairs. -/
structure Point where
  name : String
  socket : Option Int
  transferredCommands : List (Nat × Nat)
deriving DecidableEq

/-- Why an error reply was produced. -/
inductive FwdErrReason where
  | socketUnavailable
  | timeoutExpired
deriving DecidableEq

/-- A socket send performed by `forwarding`: either the message forwarded to
a destination socket, or a `data::Error` reply (command id and message id
preserved) back to the source socket. -/
inductive FwdAction where
  | forwardTo (socket : Int) (m : Message)
  | errorTo (socket : Int) (commandId : Nat) (messageId : Nat) (reason : FwdErrReason)
deriving DecidableEq

/-- `removeExpiredTime`: drop every record whose expiry is before now. -/
def sweepPoint (curTime : Nat) (p : Point) : Point :=
  { p with transferredCommands :=
      p.transferredCommands.filter fun r => !decide (r.2 < curTime) }

/-- Remove the first record with the given message id; `none` when no
record matches (the C++ found/remove loop). -/
def removeFirstRecord (id : Nat) : List (Nat × Nat) → Option (List (Nat × Nat))
  | [] => none
  | r :: rs =>
    if r.1 = id then some rs
    else match removeFirstRecord id rs with
         | none => none
         | some rs2 => some (r :: rs2)

/-- The inner lambda `func(p1, p2)` of `RouteCommands::forwarding`: result
code -1 (socket mismatch) / 0 (not forwarded) / 1 (forwarded), the updated
points, and the sends performed. -/
def RouteCommands.func (m : Message) (curTime : Nat) (p1 p2 : Point) :
    Int × Point × Point × List FwdAction :=
  match p1.socket with
  | none => (-1, p1, p2, [])
  | some d1 =>
    if d1 = m.socketDescriptor then
      match p2.socket with
      | none => (0, p1, p2, [FwdAction.errorTo d1 m.command m.id FwdErrReason.socketUnavailable])
      | some d2 =>
        if m.type = typeCommand then
          let time := if m.maxTimeLife ≠ 0 then m.maxTimeLife else curTime + 10
          (1, { p1 with transferredCommands := p1.transferredCommands ++ [(m.id, time)] },
           p2, [FwdAction.forwardTo d2 m])
        else if m.type = typeAnswer then
          match removeFirstRecord m.id p2.transferredCommands with
          | some rs => (1, p1, { p2 with transferredCommands := rs },
                        [FwdAction.forwardTo d2 m])
          | none => (0, p1, p2,
                     [FwdAction.errorTo d1 m.command m.id FwdErrReason.timeoutExpired])
        else (1, p1, p2, [FwdAction.forwardTo d2 m])
    else (-1, p1, p2, [])

/-- The forwarder state: the allow-set of commands and the two points. -/
structure RouteCommands where
  commands : List Nat
  point1 : Point
  point2 : Point
deriving DecidableEq

/-- `RouteCommands::forwarding`: reject commands outside the allow-set,
sweep expired records on both points, then try the source-to-destination
lambda in both orientations. -/
def RouteCommands.forwarding (rc : RouteCommands) (m : Message) (curTime : Nat) :
    Bool × RouteCommands × List FwdAction :=
  if m.command ∉ rc.commands then (false, rc, [])
  else
    let p1 := sweepPoint curTime rc.point1
    let p2 := sweepPoint curTime rc.point2
    let r := RouteCommands.func m curTime p1 p2
    if r.1 ≠ -1 then
      (r.1 == 1, { rc with point1 := r.2.1, point2 := r.2.2.1 }, r.2.2.2)
    else
      let r2 := RouteCommands.func m curTime p2 p1
      if r2.1 ≠ -1 then
        (r2.1 == 1, { rc with point1 := r2.2.2.1, point2 := r2.2.1 }, r2.2.2.2)
      else
        (false, { rc with point1 := p1, point2 := p2 }, [])

theorem removeFirstRecord_none_iff (id : Nat) (l : List (Nat × Nat)) :
    removeFirstRecord id l = none ↔ ∀ r ∈ l, r.1 ≠ id := by
  induction l with
  | nil => simp [removeFirstRecord]
  | cons r rs ih =>
    by_cases hr : r.1 = id
    · simp [removeFirstRecord, hr]
    · cases hrec : removeFirstRecord id rs with
      | none =>
        simp only [removeFirstRecord, hr, if_false, hrec]
        constructor
        · intro _ q hq
          rcases List.mem_cons.mp hq with hq | hq
          · rw [hq]; exact hr
          · exact ih.mp hrec q hq
        · intro _
          trivial
      | some rs2 =>
        simp only [removeFirstRecord, hr, if_false, hrec]
        constructor
        · intro hcontra
          exact absurd hcontra (by simp)
        · intro hall
          have hnone : removeFirstRecord id rs = none :=
            ih.mpr (fun q hq => hall q (List.mem_cons_of_mem r hq))
          rw [hnone] at hrec
          exact absurd hrec (by simp)

theorem removeFirstRecord_some_spec (id : Nat) (l rs : List (Nat × Nat))
    (h : removeFirstRecord id l = some rs) :
    ∃ pre r post, l = pre ++ r :: post ∧ r.1 = id
      ∧ (∀ q ∈ pre, q.1 ≠ id) ∧ rs = pre ++ post := by
  induction l generalizing rs with
  | nil => simp [removeFirstRecord] at h
  | cons r0 tl ih =>
    by_cases hr : r0.1 = id
    · refine ⟨[], r0, tl, by simp, hr, by simp, ?_⟩
      simp [removeFirstRecord, hr] at h
      simp [h.symm]
    · simp only [removeFirstRecord, hr, if_false] at h
      cases hrec : removeFirstRecord id tl with
      | none => rw [hrec] at h; simp at h
      | some rs2 =>
        rw [hrec] at h
        simp at h
        obtain ⟨pre, r, post, htl, hid, hpre, hrs2⟩ := ih rs2 hrec
        exact ⟨r0 :: pre, r, post, by simp [htl], hid,
               by simpa [hr] using hpre, by simp [← h, hrs2]⟩

theorem sweepPoint_socket (t : Nat) (p : Point) : (sweepPoint t p).socket = p.socket := rfl

theorem mem_sweepPoint (t : Nat) (p : Point) (r : Nat × Nat)
    (h : r ∈ (sweepPoint t p).transferredCommands) : ¬ r.2 < t := by
  unfold sweepPoint at h
  simp only [List.mem_filter] at h
  simpa using h.2

/-- C8: with the command in the allow-set and point1 matching the arriving
socket, a Command is recorded on the source point (expiry = maxTimeLife
when non-zero, else now + 10 s) and forwarded to the destination socket; an
Answer is forwarded exactly when its id is in the destination point records
(removing the first matching record), otherwise an Error reply carrying the
command and message ids and the expired-timeout reason goes back to the
source and nothing is forwarded; and both record lists are swept of expired
entries on the call. -/
theorem claim_C8_forwarding (rc : RouteCommands) (m : Message) (curTime : Nat)
    (d1 d2 : Int)
    (hcmd : m.command ∈ rc.commands)
    (hp1 : rc.point1.socket = some d1)
    (hd : m.socketDescriptor = d1)
    (hp2 : rc.point2.socket = some d2) :
    (m.type = typeCommand →
      rc.forwarding m curTime
        = (true,
           { rc with
             point1 := { sweepPoint curTime rc.point1 with transferredCommands :=
                 (sweepPoint curTime rc.point1).transferredCommands
                   ++ [(m.id, if m.maxTimeLife ≠ 0 then m.maxTimeLife else curTime + 10)] }
             point2 := sweepPoint curTime rc.point2 },
           [FwdAction.forwardTo d2 m]))
    ∧ (m.type = typeAnswer →
        (∀ rs, removeFirstRecord m.id (sweepPoint curTime rc.point2).transferredCommands = some rs →
          rc.forwarding m curTime
            = (true,
               { rc with
                 point1 := sweepPoint curTime rc.point1
                 point2 := { sweepPoint curTime rc.point2 with transferredCommands := rs } },
               [FwdAction.forwardTo d2 m])
          ∧ ∃ pre r post,
              (sweepPoint curTime rc.point2).transferredCommands = pre ++ r :: post
              ∧ r.1 = m.id ∧ (∀ q ∈ pre, q.1 ≠ m.id) ∧ rs = pre ++ post)
        ∧ ((∀ r ∈ (sweepPoint curTime rc.point2).transferredCommands, r.1 ≠ m.id) →
            rc.forwarding m curTime
              = (false,
                 { rc with
                   point1 := sweepPoint curTime rc.point1
                   point2 := sweepPoint curTime rc.point2 },
                 [FwdAction.errorTo d1 m.command m.id FwdErrReason.timeoutExpired])))
    ∧ (∀ r, (r ∈ ((rc.forwarding m curTime).2.1).point1.transferredCommands
             ∨ r ∈ ((rc.forwarding m curTime).2.1).point2.transferredCommands) →
        ¬ r.2 < curTime
        ∨ r = (m.id, if m.maxTimeLife ≠ 0 then m.maxTimeLife else curTime + 10)) := by
  have hsock1 : (sweepPoint curTime rc.point1).socket = some d1 := by
    rw [sweepPoint_socket, hp1]
  have hsock2 : (sweepPoint curTime rc.point2).socket = some d2 := by
    rw [sweepPoint_socket, hp2]
  refine ⟨?_, ?_, ?_⟩
  · intro ht
    simp [RouteCommands.forwarding, RouteCommands.func, hcmd, hsock1, hsock2,
          hd, ht, typeCommand]
  · intro ht
    constructor
    · intro rs hrs
      constructor
      · simp [RouteCommands.forwarding, RouteCommands.func, hcmd, hsock1, hsock2,
              hd, ht, hrs, typeCommand, typeAnswer]
      · exact removeFirstRecord_some_spec _ _ _ hrs
    · intro hnone
      have hrs : removeFirstRecord m.id (sweepPoint curTime rc.point2).transferredCommands = none :=
        (removeFirstRecord_none_iff _ _).mpr hnone
      simp [RouteCommands.forwarding, RouteCommands.func, hcmd, hsock1, hsock2,
            hd, ht, hrs, typeCommand, typeAnswer]
  · intro r hr
    by_cases htc : m.type = typeCommand
    · simp [RouteCommands.forwarding, RouteCommands.func, hcmd, hsock1, hsock2,
            hd, htc, typeCommand] at hr
      rcases hr with hr | hr
      · rcases hr with hr | hr
        · exact Or.inl (mem_sweepPoint _ _ _ hr)
        · exact Or.inr (by simp [hr])
      · exact Or.inl (mem_sweepPoint _ _ _ hr)
    · by_cases hta : m.type = typeAnswer
      · cases hrs : removeFirstRecord m.id (sweepPoint curTime rc.point2).transferredCommands with
        | some rs =>
          simp [RouteCommands.forwarding, RouteCommands.func, hcmd, hsock1, hsock2,
                hd, hta, hrs, typeCommand, typeAnswer] at hr
          rcases hr with hr | hr
          · exact Or.inl (mem_sweepPoint _ _ _ hr)
          · obtain ⟨pre, r0, post, hsw, -, -, hrseq⟩ :=
              removeFirstRecord_some_spec _ _ _ hrs
            have hmem : r ∈ (sweepPoint curTime rc.point2).transferredCommands := by
              rw [hsw]
              rw [hrseq] at hr
              rcases List.mem_append.mp hr with hr | hr
              · exact List.mem_append.mpr (Or.inl hr)
              · exact List.mem_append.mpr (Or.inr (List.mem_cons_of_mem _ hr))
            exact Or.inl (mem_sweepPoint _ _ _ hmem)
        | none =>
          simp [RouteCommands.forwarding, RouteCommands.func, hcmd, hsock1, hsock2,
                hd, hta, hrs, typeCommand, typeAnswer] at hr
          rcases hr with hr | hr
          · exact Or.inl (mem_sweepPoint _ _ _ hr)
          · exact Or.inl (mem_sweepPoint _ _ _ hr)
      · simp [RouteCommands.forwarding, RouteCommands.func, hcmd, hsock1, hsock2,
              hd, htc, hta] at hr
        rcases hr with hr | hr
        · exact Or.inl (mem_sweepPoint _ _ _ hr)
        · exact Or.inl (mem_sweepPoint _ _ _ hr)

/-- A concrete Command message arriving from socket 3. -/
def mC8 : Message :=
  ({ Message.fresh with id := 77, command := 55, socketDescriptor := 3 }).setType typeCommand

/-- A concrete forwarder: socket 3 on point1, socket 4 on point2, one
record (stale at time 2000) on point2. -/
def rcC8 : RouteCommands :=
  ⟨[55], ⟨"a", some 3, []⟩, ⟨"b", some 4, [(9, 1000)]⟩⟩

theorem claim_C8_forwarding_witness :
    mC8.command ∈ rcC8.commands
    ∧ mC8.type = typeCommand
    ∧ RouteCommands.forwarding rcC8 mC8 100
        = (true,
           { rcC8 with
             point1 := { sweepPoint 100 rcC8.point1 with transferredCommands :=
                 (sweepPoint 100 rcC8.point1).transferredCommands
                   ++ [(mC8.id, if mC8.maxTimeLife ≠ 0 then mC8.maxTimeLife else 100 + 10)] }
             point2 := sweepPoint 100 rcC8.point2 },
           [FwdAction.forwardTo 4 mC8]) :=
  ⟨by decide, by decide,
   (claim_C8_forwarding rcC8 mC8 100 3 4 (by decide) (by decide) (by decide) (by decide)).1
     (by decide)⟩

/-! ## JSON Reader (src/serialize/json.cpp).

The RapidJSON document is modelled as a JSON value tree; the Reader keeps
the C++ `{value, state, name, optional, index}` stack (head = top), the
`_error` code (1 fatal, 0 ok, -1 optional-miss) and `_hasParseError`. -/

inductive JVal where
  | null
  | bool (b : Bool)
  | uint (n : Nat)
  | str (s : String)
  | obj (members : List (String × JVal))
  | arr (xs : List JVal)

inductive StackItemState where
  | BeforeStart
  | Started
  | Closed
deriving DecidableEq

structure StackItem where
  value : JVal
  state : StackItemState
  name : String
  optional : Bool
  index : Nat

structure Reader where
  stack : List StackItem
  error : Int
  hasParseError : Bool

/-- `Reader::setError`: store the code; a non-zero code that is not an
optional miss marks the whole parse failed. -/
def Reader.setError (r : Reader) (val : Int) (optional : Bool := false) : Reader :=
  { r with error := val,
           hasParseError := if val ≠ 0 ∧ optional = false then true else r.hasParseError }

/-- RapidJSON `FindMember`. -/
def findMember (ms : List (String × JVal)) (name : String) : Option JVal :=
  match ms with
  | [] => none
  | (k, v) :: rest => if k = name then some v else findMember rest name

/-- `Reader::member(name, optional)`: with no fatal error and an object
started on top of the stack, push the found member; a missing mandatory
member logs an error and sets the fatal code, a missing optional member
only records code -1. -/
def Reader.member (r : Reader) (name : String) (optional : Bool) : Reader × List LogLevel :=
  if r.error < 1 then
    match r.stack with
    | top :: _ =>
      match top.value with
      | JVal.obj ms =>
        if top.state = StackItemState.Started then
          match findMember ms name with
          | some v =>
            let r0 := r.setError 0
            ({ r0 with stack := ⟨v, StackItemState.BeforeStart, name, optional, 0⟩ :: r0.stack }, [])
          | none =>
            if optional = false then (r.setError 1, [LogLevel.error])
            else (r.setError (-1) true, [])
        else (r.setError 1, [LogLevel.error])
      | _ => (r.setError 1, [LogLevel.error])
    | [] => (r.setError 1, [LogLevel.error])
  else (r, [])

/-- `Reader::next`: pop the finished value; when the new top is an array
being iterated, advance to its next element (clearing an optional-miss
code) or close it.  (When `state == Started` the array is non-empty, so
`index < Size() - 1` is `index + 1 < Size()`.) -/
def Reader.next (r : Reader) : Reader :=
  if r.error > 0 then r
  else
    match r.stack with
    | [] => r
    | _ :: rest =>
      match rest with
      | top :: more =>
        match top.value with
        | JVal.arr xs =>
          if top.state = StackItemState.Started then
            if top.index + 1 < xs.length then
              { r with
                error := if r.error = -1 then 0 else r.error,
                stack := ⟨xs.getD (top.index + 1) JVal.null, StackItemState.BeforeStart, "", false, 0⟩
                         :: ⟨top.value, top.state, top.name, top.optional, top.index + 1⟩ :: more }
            else
              { r with stack := ⟨top.value, StackItemState.Closed, top.name, top.optional, top.index⟩ :: more }
          else
            Reader.setError { r with stack := rest } 1
        | _ => { r with stack := rest }
      | [] => { r with stack := rest }

/-- `Reader::startObject`. -/
def Reader.startObject (r : Reader) : Reader × List LogLevel :=
  if r.error = 0 then
    match r.stack with
    | top :: rest =>
      match top.value with
      | JVal.obj ms =>
        if top.state = StackItemState.BeforeStart then
          ({ r with stack := ⟨JVal.obj ms, StackItemState.Started, top.name, top.optional, top.index⟩ :: rest }, [])
        else (r.setError 1, [LogLevel.error])
      | _ => (r.setError 1, [LogLevel.error])
    | [] => (r.setError 1, [LogLevel.error])
  else (r, [])

/-- `Reader::operator& (bool&)`: read a bool, accept null as false; the
returned option is the assignment to the target (none = target untouched). -/
def Reader.readBool (r : Reader) : Reader × Option Bool :=
  if r.error ≠ 0 then (r, none)
  else
    match r.stack with
    | top :: _ =>
      match top.value with
      | JVal.bool b => (r.next, some b)
      | JVal.null => (r.next, some false)
      | _ => (r.setError 1, none)
    | [] => (r.setError 1, none)

/-- `Reader::operator& (quint32&)`: read an unsigned int, accept null
as 0. -/
def Reader.readUInt (r : Reader) : Reader × Option Nat :=
  if r.error ≠ 0 then (r, none)
  else
    match r.stack with
    | top :: _ =>
      match top.value with
      | JVal.uint n => (r.next, some n)
      | JVal.null => (r.next, some 0)
      | _ => (r.setError 1, none)
    | [] => (r.setError 1, none)

/-- `Reader::operator& (QString&)`: read a string, accept null as the null
string. -/
def Reader.readString (r : Reader) : Reader × Option String :=
  if r.error ≠ 0 then (r, none)
  else
    match r.stack with
    | top :: _ =>
      match top.value with
      | JVal.str s => (r.next, some s)
      | JVal.null => (r.next, some "")
      | _ => (r.setError 1, none)
    | [] => (r.setError 1, none)

/-- C9: a missing mandatory member logs an error, marks the reader failed
and stops all further decoding (every later operation is a no-op once the
fatal code is set); a missing optional member is tolerated, leaving the
reader state intact and the target untouched; and a JSON null is accepted
by every value reader, yielding the type default without marking the
reader failed. -/
theorem claim_C9_jsonReader :
    (∀ (r : Reader) (top : StackItem) (rest : List StackItem)
        (ms : List (String × JVal)) (name : String),
        r.error < 1 → r.stack = top :: rest → top.value = JVal.obj ms →
        top.state = StackItemState.Started → findMember ms name = none →
        r.member name false = (r.setError 1, [LogLevel.error])
        ∧ (r.setError 1).error = 1 ∧ (r.setError 1).hasParseError = true)
    ∧ (∀ (r : Reader), r.error = 1 →
        (∀ (name : String) (opt : Bool), r.member name opt = (r, []))
        ∧ r.startObject = (r, [])
        ∧ r.readBool = (r, none)
        ∧ r.readUInt = (r, none)
        ∧ r.readString = (r, none))
    ∧ (∀ (r : Reader) (top : StackItem) (rest : List StackItem)
        (ms : List (String × JVal)) (name : String),
        r.error < 1 → r.stack = top :: rest → top.value = JVal.obj ms →
        top.state = StackItemState.Started → findMember ms name = none →
        r.member name true = (r.setError (-1) true, [])
        ∧ (r.setError (-1) true).stack = r.stack
        ∧ (r.setError (-1) true).hasParseError = r.hasParseError
        ∧ (r.setError (-1) true).readBool = (r.setError (-1) true, none)
        ∧ (r.setError (-1) true).error < 1)
    ∧ (∀ (r : Reader) (top : StackItem) (rest : List StackItem),
        r.error = 0 → r.stack = top :: rest → top.value = JVal.null →
        (∀ p ∈ rest.head?, ∀ xs, p.value ≠ JVal.arr xs) →
        r.readBool = (r.next, some false)
        ∧ r.readUInt = (r.next, some 0)
        ∧ r.readString = (r.next, some "")
        ∧ (r.next).hasParseError = r.hasParseError
        ∧ (r.next).error = r.error) := by
  refine ⟨?_, ?_, ?_, ?_⟩
  · intro r top rest ms name hlt hstack hobj hstate hfind
    refine ⟨?_, by simp [Reader.setError], by simp [Reader.setError]⟩
    simp [Reader.member, hlt, hstack, hobj, hstate, hfind]
  · intro r h1
    refine ⟨?_, ?_, ?_, ?_, ?_⟩
    · intro name opt
      simp [Reader.member, h1]
    · simp [Reader.startObject, h1]
    · simp [Reader.readBool, h1]
    · simp [Reader.readUInt, h1]
    · simp [Reader.readString, h1]
  · intro r top rest ms name hlt hstack hobj hstate hfind
    refine ⟨?_, by simp [Reader.setError], by simp [Reader.setError], ?_, by simp [Reader.setError]⟩
    · simp [Reader.member, hlt, hstack, hobj, hstate, hfind]
    · simp [Reader.readBool, Reader.setError]
  · intro r top rest h0 hstack hnull hpar
    have hnext : (r.next).hasParseError = r.hasParseError ∧ (r.next).error = r.error := by
      unfold Reader.next
      rcases rest with _ | ⟨p, more⟩
      · simp [h0, hstack]
      · have hparr : ∀ xs, p.value ≠ JVal.arr xs := hpar p (by simp)
        cases hv : p.value <;>
          simp [h0, hstack, hv] <;>
          exact absurd hv (by simpa using hparr _)
    refine ⟨?_, ?_, ?_, hnext.1, hnext.2⟩
    · simp [Reader.readBool, h0, hstack, hnull]
    · simp [Reader.readUInt, h0, hstack, hnull]
    · simp [Reader.readString, h0, hstack, hnull]

/-- A concrete reader positioned inside a started object with a single
member "a". -/
def rC9 : Reader :=
  ⟨[⟨JVal.obj [("a", JVal.null)], StackItemState.Started, "", false, 0⟩], 0, false⟩

theorem claim_C9_jsonReader_witness :
    rC9.error < 1
    ∧ findMember [("a", JVal.null)] "b" = none
    ∧ rC9.member "b" false = (rC9.setError 1, [LogLevel.error]) :=
  ⟨by decide, by rfl,
   ((claim_C9_jsonReader.1) rC9
      ⟨JVal.obj [("a", JVal.null)], StackItemState.Started, "", false, 0⟩ []
      [("a", JVal.null)] "b" (by decide) (by rfl) (by rfl) (by rfl) (by rfl)).1⟩

/-- A concrete message with every flag bit set below and above the
overridden ranges. -/
def mC5 : Message :=
  { Message.fresh with flags := 4095, flags2 := 3, tags := [8], socketDescriptor := 5 }

theorem claim_C5_cloneForAnswer_witness :
    ((6 ≤ 24 ∧ 24 ≤ 7) ∨ 11 ≤ 24)
    ∧ testBit1 (mC5.cloneForAnswer).flags 24 = testBit1 mC5.flags 24
    ∧ (mC5.cloneForAnswer).type = typeAnswer := by
  obtain ⟨-, -, -, -, -, -, -, -, -, -, -, -, -, -, -, -, hbits, htype, -, -, -, -, -⟩ :=
    claim_C5_cloneForAnswer mC5
  exact ⟨by decide, hbits 24 (by decide), htype⟩
